import Mathlib

/-!
# PROPhet `System`: feature assembly and cube dump

A shallow embedding of `src/System.cpp` (the `System` constructor, `store_output`
and `write_cube`) together with the properties proved about it.

Conventions of the embedding

* `REAL` is modelled by exact rationals; the statements below only use `1 * x`,
  products and quotients symbolically.
* A C++ exception or a call to `ERROR` is an `Except.error`; the constructor is a
  function into `Except Err System`.
* The Feature Collection stores pointers.  A pointer is modelled by the name of
  what it points to (`FeatureRef`), and is dereferenced against the final state.
* Loop counters (`int i`, `int cnt`) are naturals: sequences are assumed shorter
  than `2^31`.
* Collaborators whose code lives in other translation units (the readers, the
  Density Field transforms, `train_Local`, `RAND::Uniform`, `cube_header`) are
  parameters, bundled in `Env`.
-/

namespace PROPhet

/-! ## Data model -/

/-- Scalars of the program (`REAL`). -/
abbrev REAL := ℚ

/-- Failures that abort the construction. -/
inductive Err where
  /-- raised by `ERROR(msg)` -/
  | configuration (msg : String)
  /-- raised inside a reader -/
  | fetch (msg : String)
  /-- `std::out_of_range` thrown by `vector::at` -/
  | out_of_range
  /-- an append to a locked Feature Collection, under the failing reading -/
  | locked
  deriving DecidableEq, Repr

/-- The `map<string,string> files` argument. -/
abbrev FileMap := List (String × String)

/-- `files[key]`: the stored path, or the empty string when the key is missing
(`operator[]` default-inserts an empty string, which later reads see as `""` too). -/
def FileMap.get (files : FileMap) (key : String) : String :=
  match files.lookup key with
  | some v => v
  | none => ""

/-- The local-correction dataset `FE`; this unit only asks whether it is empty. -/
abbrev FEData := List (String × REAL)

/-- The bounds handed to `variance`; this unit only passes them on. -/
abbrev VarBounds := List REAL

/-- Modelled from the spec: the Density Field (class declared outside this unit) is
"a flat ordered sequence of scalar values" plus the metadata `dV`, `volume` and an
optional training-source tag. -/
structure DensityField where
  values : List REAL
  dV : REAL
  volume : REAL
  train : String
  deriving DecidableEq, Repr

/-- `Density.N()`: the grid length. -/
def DensityField.N (d : DensityField) : Nat := d.values.length

/-- `Density.get_dV()`. -/
def DensityField.get_dV (d : DensityField) : REAL := d.dV

/-- Modelled from the spec: a default-constructed Density Field is "left empty if
density is unused": no grid values and an empty tag. -/
def DensityField.empty : DensityField :=
  { values := [], dV := 0, volume := 0, train := "" }

/-- Modelled from the spec: the Structure Descriptor (class declared outside this
unit) carries "atomic configuration data plus an optional training-source tag and a
local-correction dataset (`FE`)". -/
structure StructureDescriptor where
  atoms : List String
  train : String
  FE : FEData
  deriving DecidableEq, Repr

/-- A default-constructed Structure Descriptor: nothing parsed, empty tag, empty `FE`. -/
def StructureDescriptor.empty : StructureDescriptor :=
  { atoms := [], train := "", FE := [] }

/-- The configuration object `Functional_params`, through the accessors this unit
calls. -/
structure Functional_params where
  inputs : List String
  sample_step : Int
  NormCD : Bool
  NormCD_val : REAL
  var_bounds : VarBounds
  Nconv : Int
  output_is_intensive : Bool
  output : String
  FE : FEData
  deriving DecidableEq, Repr

/-- `F->Ninputs()`. -/
def Functional_params.Ninputs (F : Functional_params) : Nat := F.inputs.length

/-- The reader interface `DFT_IO`. -/
structure DFT_IO where
  get_density : String → Int → Except Err DensityField
  read_structure : String → Except Err StructureDescriptor
  get_property : String → String → Except Err REAL
  get_user_property : Int → String → Except Err (List REAL)

/-- The four reader classes. -/
inductive Backend where
  | VASP
  | QE
  | FHIAIMS
  | CUSTOM
  deriving DecidableEq, Repr

/-- A call made on the reader (kept as a trace in the state). -/
inductive ReaderCall where
  | get_density (path : String) (step : Int)
  | read_structure (path : String)
  | get_property (name path : String)
  | get_user_property (index : Int) (path : String)
  deriving DecidableEq, Repr

/-- What a pointer stored in the Feature Collection points to:
`Density.as_vector_ptr()` or `&data[name]`. -/
inductive FeatureRef where
  | density
  | data (name : String)
  deriving DecidableEq, Repr

/-- Modelled from the spec: the Feature Collection (`properties`, class declared
outside this unit) is "an ordered sequence of references to named numeric feature
vectors, a boolean locked flag, and a single target scalar". -/
structure FeatureCollection where
  data : List FeatureRef
  locked : Bool
  target : Option REAL
  deriving DecidableEq, Repr

/-- The two readings of the spec's "must fail or be rejected" for an append to a
locked collection. -/
inductive LockedPush where
  /-- the append raises an error -/
  | fails
  /-- the append is dropped silently -/
  | ignored
  deriving DecidableEq, Repr

/-- Modelled from the spec: `properties.push_back(ptr)`.  "Once locked, no further
feature vectors may be appended"; an append to a locked collection "must fail or be
rejected". -/
def FeatureCollection.push_back (policy : LockedPush) (p : FeatureCollection)
    (r : FeatureRef) : Except Err FeatureCollection :=
  if p.locked then
    match policy with
    | LockedPush.fails => Except.error Err.locked
    | LockedPush.ignored => Except.ok p
  else
    Except.ok { p with data := p.data ++ [r] }

/-- Modelled from the spec: `properties.lock(flag)` sets the locked flag. -/
def FeatureCollection.lock (p : FeatureCollection) (flag : Bool) : FeatureCollection :=
  { p with locked := flag }

/-- Modelled from the spec: `properties.target(x)`; "the target may be set
independent of the lock". -/
def FeatureCollection.setTarget (p : FeatureCollection) (x : REAL) : FeatureCollection :=
  { p with target := some x }

/-- The collaborators of the constructor that live in other translation units. -/
structure Env where
  /-- the object built by `new VASP()`, `new QE()`, ... -/
  reader : Backend → DFT_IO
  normalize : REAL → DensityField → DensityField
  variance : VarBounds → DensityField → DensityField
  conv_matrix : Int → DensityField → DensityField
  downsample : Int → DensityField → DensityField
  /-- `structure.train_Local(F, energy)` -/
  train_Local : StructureDescriptor → Functional_params → REAL → REAL
  /-- the k-th value drawn from `RAND::Uniform()` -/
  uniform : Nat → REAL
  /-- what `Density.cube_header` writes -/
  cube_header : DensityField → String
  /-- the reading of the lock rule in force -/
  lockedPush : LockedPush

/-- The members of `System` this unit touches. -/
structure System where
  train : String
  Prefactor : REAL
  Density : DensityField
  struct : StructureDescriptor
  properties : FeatureCollection
  data : List (String × List REAL)
  output : List REAL
  /-- trace of the reader calls made so far -/
  calls : List ReaderCall
  /-- number of random draws made so far -/
  draws : Nat
  deriving DecidableEq, Repr

/-- The object before the constructor body runs: default-constructed members. -/
def System.fresh : System :=
  { train := "", Prefactor := 0, Density := DensityField.empty,
    struct := StructureDescriptor.empty,
    properties := { data := [], locked := false, target := none },
    data := [], output := [], calls := [], draws := 0 }

/-- `data.insert(pair(key, v))`: `std::map::insert` keeps an existing entry. -/
def mapInsert (m : List (String × List REAL)) (key : String) (v : List REAL) :
    List (String × List REAL) :=
  match m.lookup key with
  | some _ => m
  | none => m ++ [(key, v)]

/-- The vector a stored pointer refers to, read in state `s`. -/
def System.deref (s : System) : FeatureRef → List REAL
  | FeatureRef.density => s.Density.values
  | FeatureRef.data name =>
    match s.data.lookup name with
    | some v => v
    | none => []

/-! ## String helpers (`std::string`, `atoi`) -/

/-- `s.find(pat) == 0`: `pat` occurs at position 0 of `s`. -/
def findAtZero (s pat : String) : Bool := pat.data.isPrefixOf s.data

/-- `s.substr(k)` for `k ≤ s.size()`. -/
def substr (s : String) (k : Nat) : String := String.mk (s.data.drop k)

/-- C `isspace` in the "C" locale. -/
def isspace (c : Char) : Bool := c.toNat == 32 || (9 ≤ c.toNat && c.toNat ≤ 13)

/-- C `isdigit`. -/
def isdigit (c : Char) : Bool := 48 ≤ c.toNat && c.toNat ≤ 57

/-- The digit loop of `atoi`: consume decimal digits, stop at the first other
character. -/
def atoiDigits : List Char → Int → Int
  | [], acc => acc
  | c :: cs, acc =>
    if isdigit c then atoiDigits cs (acc * 10 + ((c.toNat - 48 : Nat) : Int)) else acc

/-- C `atoi` on values that fit an `int`: skip white space, read an optional sign,
then the digits. -/
def atoi (s : String) : Int :=
  match s.data.dropWhile isspace with
  | [] => 0
  | c :: ds =>
    if c = '-' then - atoiDigits ds 0
    else if c = '+' then atoiDigits ds 0
    else atoiDigits (c :: ds) 0

/-- `v.at(i)`: bounds-checked element access. -/
def vectorAt (v : List REAL) (i : Nat) : Except Err REAL :=
  match v.get? i with
  | some x => Except.ok x
  | none => Except.error Err.out_of_range

/-! ## The constructor `System::System(files, F)` -/

/-- Modelled from the spec: the macro `ERROR` is defined outside this unit; an
unknown backend code is a "fatal configuration error (aborts construction)". -/
def ERROR {α : Type} (msg : String) : Except Err α :=
  Except.error (Err.configuration msg)

/-- Lines 59-79: the reader is chosen by comparing `files["code"]` with four
literals; anything else reaches `ERROR`. -/
def selectBackend (code : String) : Except Err Backend :=
  if code = "vasp" then
    Except.ok Backend.VASP
  else if code = "qe" then
    Except.ok Backend.QE
  else if code = "fhiaims" then
    Except.ok Backend.FHIAIMS
  else if code = "prophet" then
    Except.ok Backend.CUSTOM
  else
    ERROR ("Interface to code '" ++ code ++ "' has not been implemented")

/-- Lines 87-97: the Density Field after the "density" branch has loaded and
transformed it. -/
def densityPipeline (env : Env) (F : Functional_params) (loaded : DensityField) :
    DensityField :=
  let d := if F.NormCD then env.normalize F.NormCD_val loaded else loaded
  let d := env.variance F.var_bounds d
  let d := if F.Nconv < 10 then env.conv_matrix F.Nconv d else d
  env.downsample F.sample_step d

/-- Lines 84-127: one iteration of the input loop.  Each branch computes the new
values of the members in the order of the source and then stores them. -/
def processInput (env : Env) (DFT : DFT_IO) (files : FileMap) (F : Functional_params)
    (input : String) (s : System) : Except Err System :=
  if input = "density" then do
    let loaded ←
      if s.Density.N = 0 then DFT.get_density (files.get "density") F.sample_step
      else pure s.Density
    let calls :=
      if s.Density.N = 0 then
        s.calls ++ [ReaderCall.get_density (files.get "density") F.sample_step]
      else s.calls
    let Density := densityPipeline env F loaded
    let props ← s.properties.push_back env.lockedPush FeatureRef.density
    let Prefactor := s.Prefactor * Density.get_dV
    let Prefactor := if F.output_is_intensive then Prefactor / Density.volume else Prefactor
    let train := if Density.train ≠ "" then Density.train else s.train
    pure { s with
      Density := Density, calls := calls, properties := props,
      Prefactor := Prefactor, train := train }
  else if input = "density^2" then
    pure s
  else if findAtZero input "user" then do
    let prop := atoi (substr input 4)
    let v ← DFT.get_user_property prop (files.get "user")
    let calls := s.calls ++ [ReaderCall.get_user_property prop (files.get "user")]
    let data := mapInsert s.data input v
    let props ← s.properties.push_back env.lockedPush (FeatureRef.data input)
    pure { s with calls := calls, data := data, properties := props }
  else if input = "structure" then do
    let st ← DFT.read_structure (files.get "structure")
    let calls := s.calls ++ [ReaderCall.read_structure (files.get "structure")]
    let train := if st.train ≠ "" then st.train else s.train
    pure { s with
      struct := st, calls := calls, train := train,
      properties := s.properties.lock true }
  else if input = "random" then do
    let data := mapInsert s.data input [env.uniform s.draws]
    let props ← s.properties.push_back env.lockedPush (FeatureRef.data input)
    pure { s with data := data, draws := s.draws + 1, properties := props }
  else do
    let x ← DFT.get_property input (files.get input)
    let calls := s.calls ++ [ReaderCall.get_property input (files.get input)]
    let data := mapInsert s.data input [x]
    let props ← s.properties.push_back env.lockedPush (FeatureRef.data input)
    pure { s with calls := calls, data := data, properties := props }

/-- The state stored by the "density" branch, given the field it started from
(`loaded`) and the collection after the append (`props`). -/
def afterDensity (env : Env) (files : FileMap) (F : Functional_params) (s : System)
    (loaded : DensityField) (props : FeatureCollection) : System :=
  let Density := densityPipeline env F loaded
  { s with
    Density := Density,
    calls :=
      if s.Density.N = 0 then
        s.calls ++ [ReaderCall.get_density (files.get "density") F.sample_step]
      else s.calls,
    properties := props,
    Prefactor :=
      if F.output_is_intensive then s.Prefactor * Density.get_dV / Density.volume
      else s.Prefactor * Density.get_dV,
    train := if Density.train ≠ "" then Density.train else s.train }

/-- Lines 83-128: the input loop, over `F->inputs(0)`, ..., `F->inputs(Ninputs()-1)`,
in order. -/
def processInputs (env : Env) (DFT : DFT_IO) (files : FileMap) (F : Functional_params) :
    List String → System → Except Err System
  | [], s => pure s
  | input :: rest, s => do
    let s ← processInput env DFT files F input s
    processInputs env DFT files F rest s

/-- Lines 132-151: the target. -/
def resolveTarget (env : Env) (DFT : DFT_IO) (files : FileMap) (F : Functional_params)
    (s : System) : Except Err System :=
  if F.output = "gw_gap" then do
    let GW_gap ← DFT.get_property "gw_gap" (files.get "gw_gap")
    pure { s with
      calls := s.calls ++ [ReaderCall.get_property "gw_gap" (files.get "gw_gap")],
      properties := s.properties.setTarget GW_gap }
  else if findAtZero F.output "user" then
    if files.get "code" = "prophet" then do
      let x ← DFT.get_property "user" "user"
      pure { s with
        calls := s.calls ++ [ReaderCall.get_property "user" "user"],
        properties := s.properties.setTarget x }
    else do
      let prop := atoi (substr F.output 4)
      let v ← DFT.get_user_property prop (files.get "user")
      let x ← vectorAt v 0
      pure { s with
        calls := s.calls ++ [ReaderCall.get_user_property prop (files.get "user")],
        properties := s.properties.setTarget x }
  else if F.output = "energy" then do
    let energy ← DFT.get_property F.output (files.get F.output)
    let energy :=
      if !F.FE.isEmpty || !s.struct.FE.isEmpty then env.train_Local s.struct F energy
      else energy
    pure { s with
      calls := s.calls ++ [ReaderCall.get_property F.output (files.get F.output)],
      properties := s.properties.setTarget energy }
  else do
    let x ← DFT.get_property F.output (files.get F.output)
    pure { s with
      calls := s.calls ++ [ReaderCall.get_property F.output (files.get F.output)],
      properties := s.properties.setTarget x }

/-- Lines 55, 57 and 80: the state in which the input loop starts. -/
def initialState (files : FileMap) : System :=
  let s := { System.fresh with train := "train" }
  let s := { s with Prefactor := 1 }
  { s with train := files.get "train" }

/-- Lines 55-152 once the reader exists. -/
def constructWith (env : Env) (DFT : DFT_IO) (files : FileMap) (F : Functional_params) :
    Except Err System := do
  let s ← processInputs env DFT files F F.inputs (initialState files)
  resolveTarget env DFT files F s

/-- `System::System(files, F)`. -/
def construct (env : Env) (files : FileMap) (F : Functional_params) : Except Err System := do
  let b ← selectBackend (files.get "code")
  constructWith env (env.reader b) files F

/-- A piece written to an output stream. -/
inductive Tok where
  /-- a string literal or header text, written as is -/
  | str (s : String)
  /-- an integer written with `<<` -/
  | int (n : Int)
  /-- a scalar written after `setw(width)` -/
  | num (width : Nat) (x : REAL)
  deriving DecidableEq, Repr

/-- `System::store_output(x)`. -/
def store_output (s : System) (x : REAL) : System :=
  { s with output := s.output ++ [x] }

/-- The value loops of `write_cube` (lines 209-213 and 224-228): `xs` are the values
still to write, `cnt` the counter, `out` the stream written so far. -/
def writeValues : List REAL → Nat → List Tok → List Tok
  | [], _, out => out
  | x :: xs, cnt, out =>
    let cnt := cnt + 1
    let out := out ++ [Tok.num 12 x]
    let out := if cnt % 6 = 0 then out ++ [Tok.str "\n"] else out
    writeValues xs cnt out

/-- A file written by `write_cube`. -/
structure CubeFile where
  name : String
  content : List Tok
  deriving DecidableEq, Repr

/-- What precedes the values in `<fname>.out.cube` (lines 204-208). -/
def outCubeHeader (env : Env) (s : System) : List Tok :=
  [Tok.str "This is the output from PROPhet\n", Tok.str "\n", Tok.int 1, Tok.str "\n",
   Tok.str (env.cube_header s.Density), Tok.str "1 1 0.0 0.0 0.0\n"]

/-- What precedes the values in `<fname>.in.cube` (lines 218-222). -/
def inCubeHeader (env : Env) (s : System) : List Tok :=
  [Tok.str "This is the input to PROPhet\n", Tok.str "\n", Tok.str "1\n",
   Tok.str (env.cube_header s.Density), Tok.str "1 1 0.0 0.0 0.0\n"]

/-- `System::write_cube(fname)`: the two files, in the order written. -/
def write_cube (env : Env) (s : System) (fname : String) : CubeFile × CubeFile :=
  let outcube : CubeFile :=
    { name := fname ++ ".out.cube",
      content := writeValues s.output 0 (outCubeHeader env s) }
  let incube : CubeFile :=
    { name := fname ++ ".in.cube",
      content := writeValues s.Density.values 0 (inCubeHeader env s) }
  (outcube, incube)

/-- The rule of the value block in the spec's words: the k-th value (counting from
`start + 1`) in a field of width 12, followed by a newline exactly when k is a
multiple of 6. -/
def valueBlockSpec : List REAL → Nat → List Tok
  | [], _ => []
  | x :: xs, start =>
    (if (start + 1) % 6 = 0 then [Tok.num 12 x, Tok.str "\n"] else [Tok.num 12 x])
      ++ valueBlockSpec xs (start + 1)

/-- The scalars of a stream, in the order written. -/
def numbersOf : List Tok → List REAL
  | [] => []
  | Tok.num _ x :: ts => x :: numbersOf ts
  | _ :: ts => numbersOf ts

/-! ## Sample collaborators, used to evaluate the definitions -/

/-- A stand-in `downsample`: keep the values at positions that are multiples of `k`. -/
def sampleEvery (k : Nat) (xs : List REAL) : List REAL :=
  (List.range xs.length).filterMap (fun i => if i % k = 0 then xs.get? i else none)

/-- A reader that answers every request. -/
def sampleReader (densityTag structureTag : String) (fe : FEData) : DFT_IO :=
  { get_density := fun _ _ =>
      Except.ok { values := [1, 2, 3, 4], dV := 2, volume := 4, train := densityTag },
    read_structure := fun _ =>
      Except.ok { atoms := ["H", "H"], train := structureTag, FE := fe },
    get_property := fun _ _ => Except.ok 5,
    get_user_property := fun index _ => if index = 3 then Except.ok [7, 8] else Except.ok [] }

/-- Sample collaborators around `sampleReader`. -/
def sampleEnv (densityTag structureTag : String) (fe : FEData) (policy : LockedPush) : Env :=
  { reader := fun _ => sampleReader densityTag structureTag fe,
    normalize := fun t d => { d with values := d.values.map (fun x => x * t) },
    variance := fun _ d => d,
    conv_matrix := fun n d => { d with values := d.values.take n.toNat },
    downsample := fun k d => { d with values := sampleEvery k.toNat d.values },
    train_Local := fun _ _ e => e + 1,
    uniform := fun _ => 0,
    cube_header := fun _ => "",
    lockedPush := policy }

/-- A sample configuration. -/
def sampleParams (inputs : List String) (output : String) (intensive : Bool) :
    Functional_params :=
  { inputs := inputs, sample_step := 1, NormCD := false, NormCD_val := 1,
    var_bounds := [], Nconv := 10, output_is_intensive := intensive,
    output := output, FE := [] }

/-- The state the sample reader leaves after the inputs "density", "structure" on an
empty file map. -/
def sampleLocked : System :=
  { train := "", Prefactor := 2,
    Density := { values := [1, 2, 3, 4], dV := 2, volume := 4, train := "" },
    struct := { atoms := ["H", "H"], train := "", FE := [] },
    properties := { data := [FeatureRef.density], locked := true, target := none },
    data := [], output := [],
    calls := [ReaderCall.get_density "" 1, ReaderCall.read_structure ""],
    draws := 0 }

/-- A state with a grid of five values in which `store_output` was called seven
times. -/
def sampleCubeState : System :=
  [1, 2, 3, 4, 5, 6, 7].foldl store_output
    { sampleLocked with
      Density := { values := [10, 20, 30, 40, 50], dV := 2, volume := 4, train := "" } }

/-! ## How one input changes the state -/

/-- The "density" branch succeeds exactly when the load (if any) and the append do,
and then stores `afterDensity`. -/
theorem processInput_density_ok (env : Env) (DFT : DFT_IO) (files : FileMap)
    (F : Functional_params) (s s' : System) :
    processInput env DFT files F "density" s = Except.ok s' ↔
      ∃ loaded props,
        (if s.Density.N = 0 then
            DFT.get_density (files.get "density") F.sample_step = Except.ok loaded
          else loaded = s.Density) ∧
        s.properties.push_back env.lockedPush FeatureRef.density = Except.ok props ∧
        s' = afterDensity env files F s loaded props := by
  by_cases hN : s.Density.N = 0
  · cases hg : DFT.get_density (files.get "density") F.sample_step <;>
    cases hp : s.properties.push_back env.lockedPush FeatureRef.density <;>
    simp only [processInput, hN, hg, hp, bind, Except.bind, pure, Except.pure, afterDensity,
      if_true, if_false, false_and, and_false, exists_false, exists_const, Except.ok.injEq,
      reduceCtorEq, exists_eq_left, exists_eq_left', exists_and_left]
    exact eq_comm
  · cases hp : s.properties.push_back env.lockedPush FeatureRef.density <;>
    simp only [processInput, hN, hp, bind, Except.bind, pure, Except.pure, afterDensity,
      if_true, if_false, false_and, and_false, exists_false, exists_const, Except.ok.injEq,
      reduceCtorEq, exists_eq_left, exists_eq_left', exists_and_left]
    exact eq_comm

/-- The "structure" branch succeeds exactly when the reader does, and then stores
the structure, its tag if any, and the lock. -/
theorem processInput_structure_ok (env : Env) (DFT : DFT_IO) (files : FileMap)
    (F : Functional_params) (s s' : System) :
    processInput env DFT files F "structure" s = Except.ok s' ↔
      ∃ st, DFT.read_structure (files.get "structure") = Except.ok st ∧
        s' = { s with
          struct := st,
          calls := s.calls ++ [ReaderCall.read_structure (files.get "structure")],
          train := if st.train ≠ "" then st.train else s.train,
          properties := s.properties.lock true } := by
  have h1 : ¬ ("structure" = "density") := by decide
  have h2 : ¬ ("structure" = "density^2") := by decide
  have h3 : findAtZero "structure" "user" = false := by decide
  cases hr : DFT.read_structure (files.get "structure") <;>
  simp only [processInput, h1, h2, h3, hr, bind, Except.bind, pure, Except.pure,
    if_true, if_false, false_and, exists_false, Except.ok.injEq, reduceCtorEq,
    exists_eq_left', Bool.false_eq_true]
  exact eq_comm

/-- What a successful append does to the collection. -/
theorem push_back_ok (policy : LockedPush) (p p' : FeatureCollection) (r : FeatureRef)
    (h : p.push_back policy r = Except.ok p') :
    p'.locked = p.locked ∧ p'.target = p.target ∧
      (p.locked = true → p' = p) ∧ (p.locked = false → p'.data = p.data ++ [r]) := by
  unfold FeatureCollection.push_back at h
  by_cases hl : p.locked = true
  · cases policy <;> simp [hl] at h
    subst h; simp [hl]
  · simp only [hl, if_false, Except.ok.injEq, Bool.false_eq_true] at h
    subst h; simp [hl]

/-- An input other than "density" and "structure" leaves the tag, the prefactor, the
Density Field and the Structure Descriptor alone, and touches the collection through
at most one append. -/
theorem processInput_other (env : Env) (DFT : DFT_IO) (files : FileMap)
    (F : Functional_params) (input : String) (s s' : System)
    (hd : input ≠ "density") (hs : input ≠ "structure")
    (h : processInput env DFT files F input s = Except.ok s') :
    s'.train = s.train ∧ s'.Prefactor = s.Prefactor ∧ s'.Density = s.Density ∧
      s'.struct = s.struct ∧
      (s'.properties = s.properties ∨
        s.properties.push_back env.lockedPush (FeatureRef.data input) =
          Except.ok s'.properties) := by
  unfold processInput at h
  simp only [hd, hs, if_false] at h
  split_ifs at h with h2 h3 h5
  · simp only [pure, Except.pure, Except.ok.injEq] at h
    subst h; simp
  · cases hr : DFT.get_user_property (atoi (substr input 4)) (files.get "user") <;>
    cases hp : s.properties.push_back env.lockedPush (FeatureRef.data input) <;>
    simp only [hr, hp, bind, Except.bind, pure, Except.pure, Except.ok.injEq,
      reduceCtorEq] at h
    subst h; simp
  · cases hp : s.properties.push_back env.lockedPush (FeatureRef.data input) <;>
    simp only [hp, bind, Except.bind, pure, Except.pure, Except.ok.injEq,
      reduceCtorEq] at h
    subst h; simp
  · cases hr : DFT.get_property input (files.get input) <;>
    cases hp : s.properties.push_back env.lockedPush (FeatureRef.data input) <;>
    simp only [hr, hp, bind, Except.bind, pure, Except.pure, Except.ok.injEq,
      reduceCtorEq] at h
    subst h; simp

/-- An input other than "density" leaves the prefactor and the Density Field alone. -/
theorem processInput_not_density (env : Env) (DFT : DFT_IO) (files : FileMap)
    (F : Functional_params) (input : String) (s s' : System) (hd : input ≠ "density")
    (h : processInput env DFT files F input s = Except.ok s') :
    s'.Prefactor = s.Prefactor ∧ s'.Density = s.Density := by
  by_cases hs : input = "structure"
  · subst hs
    obtain ⟨st, -, rfl⟩ := (processInput_structure_ok env DFT files F s s').mp h
    simp
  · obtain ⟨-, h2, h3, -⟩ := processInput_other env DFT files F input s s' hd hs h
    exact ⟨h2, h3⟩

/-- The loop over a concatenation runs the first part, then the second. -/
theorem processInputs_append (env : Env) (DFT : DFT_IO) (files : FileMap)
    (F : Functional_params) (l1 l2 : List String) (s : System) :
    processInputs env DFT files F (l1 ++ l2) s =
      (processInputs env DFT files F l1 s >>= processInputs env DFT files F l2) := by
  induction l1 generalizing s with
  | nil => rfl
  | cons input rest ih =>
    simp only [List.cons_append, processInputs]
    cases processInput env DFT files F input s with
    | error e => rfl
    | ok s1 => simpa [bind, Except.bind] using ih s1

/-- A successful step of the loop, split off the front. -/
theorem processInputs_cons_ok (env : Env) (DFT : DFT_IO) (files : FileMap)
    (F : Functional_params) (input : String) (rest : List String) (s s' : System) :
    processInputs env DFT files F (input :: rest) s = Except.ok s' ↔
      ∃ s1, processInput env DFT files F input s = Except.ok s1 ∧
        processInputs env DFT files F rest s1 = Except.ok s' := by
  simp only [processInputs]
  cases processInput env DFT files F input s with
  | error e => simp [bind, Except.bind]
  | ok s1 => simp [bind, Except.bind]

/-- The target resolution only writes the target and the trace. -/
theorem resolveTarget_frame (env : Env) (DFT : DFT_IO) (files : FileMap)
    (F : Functional_params) (s s' : System)
    (h : resolveTarget env DFT files F s = Except.ok s') :
    s'.train = s.train ∧ s'.Prefactor = s.Prefactor ∧ s'.Density = s.Density ∧
      s'.struct = s.struct ∧ s'.properties.data = s.properties.data ∧
      s'.properties.locked = s.properties.locked ∧ s'.data = s.data := by
  unfold resolveTarget at h
  split_ifs at h with h1 h2 h3 h4
  · cases hr : DFT.get_property "gw_gap" (files.get "gw_gap") <;>
    simp only [hr, bind, Except.bind, pure, Except.pure, Except.ok.injEq, reduceCtorEq] at h
    subst h; simp [FeatureCollection.setTarget]
  · cases hr : DFT.get_property "user" "user" <;>
    simp only [hr, bind, Except.bind, pure, Except.pure, Except.ok.injEq, reduceCtorEq] at h
    subst h; simp [FeatureCollection.setTarget]
  · cases hr : DFT.get_user_property (atoi (substr F.output 4)) (files.get "user") with
    | error e =>
      simp only [hr, bind, Except.bind, reduceCtorEq] at h
    | ok v =>
      cases hv : vectorAt v 0 <;>
      simp only [hr, hv, bind, Except.bind, pure, Except.pure, Except.ok.injEq,
        reduceCtorEq] at h
      subst h; simp [FeatureCollection.setTarget]
  · cases hr : DFT.get_property F.output (files.get F.output) <;>
    simp only [hr, bind, Except.bind, pure, Except.pure, Except.ok.injEq, reduceCtorEq] at h
    subst h; simp [FeatureCollection.setTarget]
  · cases hr : DFT.get_property F.output (files.get F.output) <;>
    simp only [hr, bind, Except.bind, pure, Except.pure, Except.ok.injEq, reduceCtorEq] at h
    subst h; simp [FeatureCollection.setTarget]
  · cases hr : DFT.get_property F.output (files.get F.output) <;>
    simp only [hr, bind, Except.bind, pure, Except.pure, Except.ok.injEq, reduceCtorEq] at h
    subst h; simp [FeatureCollection.setTarget]

/-- A successful construction: the backend chosen, the state after the inputs, and
the target resolution. -/
theorem construct_ok (env : Env) (files : FileMap) (F : Functional_params) (s' : System) :
    construct env files F = Except.ok s' ↔
      ∃ b s, selectBackend (files.get "code") = Except.ok b ∧
        processInputs env (env.reader b) files F F.inputs (initialState files) = Except.ok s ∧
        resolveTarget env (env.reader b) files F s = Except.ok s' := by
  unfold construct constructWith
  cases hb : selectBackend (files.get "code") with
  | error e => simp [bind, Except.bind]
  | ok b =>
    cases hp : processInputs env (env.reader b) files F F.inputs (initialState files) with
    | error e => simp [bind, Except.bind, hp]
    | ok s => simp [bind, Except.bind, hp]

/-- Inputs other than "density" leave the prefactor and the Density Field alone. -/
theorem processInputs_no_density (env : Env) (DFT : DFT_IO) (files : FileMap)
    (F : Functional_params) (l : List String) (s s' : System) (hl : "density" ∉ l)
    (h : processInputs env DFT files F l s = Except.ok s') :
    s'.Prefactor = s.Prefactor ∧ s'.Density = s.Density := by
  induction l generalizing s with
  | nil =>
    simp only [processInputs, pure, Except.pure, Except.ok.injEq] at h
    subst h; exact ⟨rfl, rfl⟩
  | cons input rest ih =>
    obtain ⟨s1, h1, h2⟩ := (processInputs_cons_ok env DFT files F input rest s s').mp h
    have hne : input ≠ "density" := fun hc => hl (by simp [hc])
    have hrest : "density" ∉ rest := fun hc => hl (List.mem_cons_of_mem _ hc)
    obtain ⟨e1, e2⟩ := processInput_not_density env DFT files F input s s1 hne h1
    obtain ⟨e3, e4⟩ := ih s1 hrest h2
    exact ⟨e3.trans e1, e4.trans e2⟩

/-- The prefactor stored by one "density" input. -/
theorem processInput_density_prefactor (env : Env) (DFT : DFT_IO) (files : FileMap)
    (F : Functional_params) (s s' : System)
    (h : processInput env DFT files F "density" s = Except.ok s') :
    s'.Prefactor =
      if F.output_is_intensive then s.Prefactor * s'.Density.get_dV / s'.Density.volume
      else s.Prefactor * s'.Density.get_dV := by
  obtain ⟨loaded, props, -, -, rfl⟩ := (processInput_density_ok env DFT files F s s').mp h
  rfl

/-- With exactly one "density" among the inputs and a prefactor of 1 at the start,
the loop ends with the prefactor of that single input. -/
theorem processInputs_single_density (env : Env) (DFT : DFT_IO) (files : FileMap)
    (F : Functional_params) (l : List String) (s s' : System)
    (hl : l.count "density" = 1) (hs : s.Prefactor = 1)
    (h : processInputs env DFT files F l s = Except.ok s') :
    s'.Prefactor =
      if F.output_is_intensive then s'.Density.get_dV / s'.Density.volume
      else s'.Density.get_dV := by
  induction l generalizing s with
  | nil => simp at hl
  | cons input rest ih =>
    obtain ⟨s1, h1, h2⟩ := (processInputs_cons_ok env DFT files F input rest s s').mp h
    by_cases hd : input = "density"
    · subst hd
      have hrest : "density" ∉ rest := by
        intro hc
        have := List.count_pos_iff.mpr hc
        simp only [List.count_cons_self] at hl
        omega
      obtain ⟨e1, e2⟩ := processInputs_no_density env DFT files F rest s1 s' hrest h2
      have hp := processInput_density_prefactor env DFT files F s s1 h1
      rw [e1, e2, hp, hs]
      simp only [one_mul]
    · have hc : rest.count "density" = 1 := by
        rw [List.count_cons_of_ne (Ne.symm hd)] at hl
        exact hl
      obtain ⟨e1, -⟩ := processInput_not_density env DFT files F input s s1 hd h1
      exact ih s1 hc (e1.trans hs) h2

/-- On a locked collection no input changes the stored vectors or the lock. -/
theorem processInput_locked (env : Env) (DFT : DFT_IO) (files : FileMap)
    (F : Functional_params) (input : String) (s s' : System)
    (hlock : s.properties.locked = true)
    (h : processInput env DFT files F input s = Except.ok s') :
    s'.properties.locked = true ∧ s'.properties.data = s.properties.data := by
  by_cases hd : input = "density"
  · subst hd
    obtain ⟨loaded, props, -, hp, rfl⟩ := (processInput_density_ok env DFT files F s s').mp h
    obtain ⟨-, -, h3, -⟩ := push_back_ok _ _ _ _ hp
    have := h3 hlock
    subst this
    exact ⟨hlock, rfl⟩
  · by_cases hs : input = "structure"
    · subst hs
      obtain ⟨st, -, rfl⟩ := (processInput_structure_ok env DFT files F s s').mp h
      exact ⟨rfl, rfl⟩
    · obtain ⟨-, -, -, -, hp⟩ := processInput_other env DFT files F input s s' hd hs h
      rcases hp with hp | hp
      · rw [hp]; exact ⟨hlock, rfl⟩
      · obtain ⟨-, -, h3, -⟩ := push_back_ok _ _ _ _ hp
        rw [h3 hlock]; exact ⟨hlock, rfl⟩

/-- On a locked collection no list of inputs changes the stored vectors or the lock. -/
theorem processInputs_locked (env : Env) (DFT : DFT_IO) (files : FileMap)
    (F : Functional_params) (l : List String) (s s' : System)
    (hlock : s.properties.locked = true)
    (h : processInputs env DFT files F l s = Except.ok s') :
    s'.properties.locked = true ∧ s'.properties.data = s.properties.data := by
  induction l generalizing s with
  | nil =>
    simp only [processInputs, pure, Except.pure, Except.ok.injEq] at h
    subst h; exact ⟨hlock, rfl⟩
  | cons input rest ih =>
    obtain ⟨s1, h1, h2⟩ := (processInputs_cons_ok env DFT files F input rest s s').mp h
    obtain ⟨e1, e2⟩ := processInput_locked env DFT files F input s s1 hlock h1
    obtain ⟨e3, e4⟩ := ih s1 e1 h2
    exact ⟨e3, e4.trans e2⟩

/-- Reading a computed outcome back: an outcome whose image under `f` is `some v`
is a success with `f s = v`. -/
theorem ok_of_toOption_map {β : Type} {x : Except Err System} {f : System → β} {v : β}
    (h : x.toOption.map f = some v) : ∃ s, x = Except.ok s ∧ f s = v := by
  cases x with
  | error e => simp [Except.toOption] at h
  | ok s => exact ⟨s, rfl, by simpa [Except.toOption] using h⟩

/-! ## `atoi` on decimal numerals -/

theorem digitChar_toNat (d : Nat) (h : d < 10) : (Nat.digitChar d).toNat = 48 + d := by
  interval_cases d <;> rfl

theorem isdigit_digitChar (d : Nat) (h : d < 10) : isdigit (Nat.digitChar d) = true := by
  interval_cases d <;> rfl

theorem toDigitsCore_acc (fuel n : Nat) (ds : List Char) :
    Nat.toDigitsCore 10 fuel n ds = Nat.toDigitsCore 10 fuel n [] ++ ds := by
  induction fuel generalizing n ds with
  | zero => simp [Nat.toDigitsCore]
  | succ fuel ih =>
    simp only [Nat.toDigitsCore]
    split_ifs
    · simp
    · rw [ih (n / 10) (Nat.digitChar (n % 10) :: ds), ih (n / 10) [Nat.digitChar (n % 10)]]
      simp

theorem toDigitsCore_fuel (fuel1 fuel2 n : Nat) (h1 : n < fuel1) (h2 : n < fuel2) :
    Nat.toDigitsCore 10 fuel1 n [] = Nat.toDigitsCore 10 fuel2 n [] := by
  induction fuel1 generalizing fuel2 n with
  | zero => omega
  | succ fuel1 ih =>
    cases fuel2 with
    | zero => omega
    | succ fuel2 =>
      simp only [Nat.toDigitsCore]
      split_ifs with h
      · rfl
      · rw [toDigitsCore_acc fuel1, toDigitsCore_acc fuel2]
        rw [ih fuel2 (n / 10) (by omega) (by omega)]

theorem toDigits_small (n : Nat) (h : n < 10) : Nat.toDigits 10 n = [Nat.digitChar n] := by
  have h0 : n / 10 = 0 := by omega
  have h1 : n % 10 = n := by omega
  simp [Nat.toDigits, Nat.toDigitsCore, h0, h1]

theorem toDigits_large (n : Nat) (h : 10 ≤ n) :
    Nat.toDigits 10 n = Nat.toDigits 10 (n / 10) ++ [Nat.digitChar (n % 10)] := by
  have h0 : n / 10 ≠ 0 := by omega
  have hstep : Nat.toDigitsCore 10 (n + 1) n [] =
      Nat.toDigitsCore 10 n (n / 10) [Nat.digitChar (n % 10)] := by
    simp [Nat.toDigitsCore, h0]
  show Nat.toDigitsCore 10 (n + 1) n [] =
    Nat.toDigitsCore 10 (n / 10 + 1) (n / 10) [] ++ [Nat.digitChar (n % 10)]
  rw [hstep, toDigitsCore_acc, toDigitsCore_fuel n (n / 10 + 1) (n / 10) (by omega) (by omega)]

theorem atoiDigits_snoc (cs : List Char) (c : Char) (acc : Int)
    (hcs : ∀ x ∈ cs, isdigit x = true) (hc : isdigit c = true) :
    atoiDigits (cs ++ [c]) acc = atoiDigits cs acc * 10 + ((c.toNat - 48 : Nat) : Int) := by
  induction cs generalizing acc with
  | nil => simp [atoiDigits, hc]
  | cons x xs ih =>
    have hx : isdigit x = true := hcs x (by simp)
    simp only [List.cons_append, atoiDigits, hx, if_true]
    exact ih _ (fun y hy => hcs y (List.mem_cons_of_mem _ hy))

theorem toDigits_spec (n : Nat) :
    (∀ x ∈ Nat.toDigits 10 n, isdigit x = true) ∧ Nat.toDigits 10 n ≠ [] ∧
      atoiDigits (Nat.toDigits 10 n) 0 = (n : Int) := by
  induction n using Nat.strong_induction_on with
  | _ n ih =>
    by_cases h : n < 10
    · rw [toDigits_small n h]
      refine ⟨?_, by simp, ?_⟩
      · intro x hx
        simp only [List.mem_singleton] at hx
        subst hx
        exact isdigit_digitChar n h
      · simp [atoiDigits, isdigit_digitChar n h, digitChar_toNat n h]
    · have hlt : n / 10 < n := by omega
      obtain ⟨i1, i2, i3⟩ := ih (n / 10) hlt
      rw [toDigits_large n (by omega)]
      have hd : isdigit (Nat.digitChar (n % 10)) = true := isdigit_digitChar _ (by omega)
      refine ⟨?_, by simp, ?_⟩
      · intro x hx
        simp only [List.mem_append, List.mem_singleton] at hx
        rcases hx with hx | hx
        · exact i1 x hx
        · subst hx; exact hd
      · rw [atoiDigits_snoc _ _ _ i1 hd, i3, digitChar_toNat _ (by omega)]
        simp only [Nat.add_sub_cancel_left]
        omega

theorem atoi_of_digits (cs : List Char) (hne : cs ≠ []) (hcs : ∀ x ∈ cs, isdigit x = true) :
    atoi (String.mk cs) = atoiDigits cs 0 := by
  cases cs with
  | nil => exact absurd rfl hne
  | cons c ds =>
    have hc : isdigit c = true := hcs c (by simp)
    have hb : 48 ≤ c.toNat ∧ c.toNat ≤ 57 := by
      simpa [isdigit] using hc
    have hsp : isspace c = false := by
      simp only [isspace, Bool.or_eq_false_iff, beq_eq_false_iff_ne, ne_eq,
        Bool.and_eq_false_iff, decide_eq_false_iff_not]
      omega
    have hminus : c ≠ '-' := by
      intro hc2; subst hc2; simp [isdigit] at hc
    have hplus : c ≠ '+' := by
      intro hc2; subst hc2; simp [isdigit] at hc
    simp only [atoi, List.dropWhile, hsp, hminus, hplus, if_false]

/-- `atoi` reads back the decimal numeral of a natural number. -/
theorem atoi_toString_nat (n : Nat) : atoi (toString n) = (n : Int) := by
  obtain ⟨h1, h2, h3⟩ := toDigits_spec n
  show atoi (String.mk (Nat.toDigits 10 n)) = n
  rw [atoi_of_digits _ h2 h1, h3]

/-- `atoi` reads back the decimal numeral of an integer. -/
theorem atoi_toString_int (n : Int) : atoi (toString n) = n := by
  cases n with
  | ofNat m => exact atoi_toString_nat m
  | negSucc m =>
    obtain ⟨h1, h2, h3⟩ := toDigits_spec (m + 1)
    show atoi (String.mk ('-' :: Nat.toDigits 10 (m + 1))) = Int.negSucc m
    have hsp : isspace '-' = false := by decide
    simp only [atoi, List.dropWhile, hsp, if_true, h3]
    rw [Int.negSucc_eq]
    push_cast
    ring

/-! ## The value loop of `write_cube` -/

/-- The loop appends to the stream exactly the block described by the rule. -/
theorem writeValues_eq (xs : List REAL) (cnt : Nat) (out : List Tok) :
    writeValues xs cnt out = out ++ valueBlockSpec xs cnt := by
  induction xs generalizing cnt out with
  | nil => simp [writeValues, valueBlockSpec]
  | cons x xs ih =>
    simp only [writeValues, valueBlockSpec]
    rw [ih]
    split_ifs <;> simp

/-- The scalars of a block are the values it was built from, in order. -/
theorem numbersOf_valueBlockSpec (xs : List REAL) (start : Nat) :
    numbersOf (valueBlockSpec xs start) = xs := by
  induction xs generalizing start with
  | nil => rfl
  | cons x xs ih =>
    simp only [valueBlockSpec]
    split_ifs <;> simp [numbersOf, ih]

/-- Every piece of a block is a newline or one of the values in a field of width 12. -/
theorem mem_valueBlockSpec (xs : List REAL) (start : Nat) (t : Tok)
    (h : t ∈ valueBlockSpec xs start) : t = Tok.str "\n" ∨ ∃ x ∈ xs, t = Tok.num 12 x := by
  induction xs generalizing start with
  | nil => simp [valueBlockSpec] at h
  | cons x xs ih =>
    simp only [valueBlockSpec, List.mem_append] at h
    rcases h with h | h
    · split_ifs at h
      · simp only [List.mem_cons, List.mem_singleton, List.not_mem_nil, or_false] at h
        rcases h with h | h
        · exact Or.inr ⟨x, by simp, h⟩
        · exact Or.inl h
      · simp only [List.mem_singleton] at h
        exact Or.inr ⟨x, by simp, h⟩
    · rcases ih (start + 1) h with h | ⟨y, hy, h⟩
      · exact Or.inl h
      · exact Or.inr ⟨y, List.mem_cons_of_mem _ hy, h⟩

/-- The number of newlines of a block. -/
theorem count_newline_valueBlockSpec (xs : List REAL) (start : Nat) :
    (valueBlockSpec xs start).count (Tok.str "\n") = (start + xs.length) / 6 - start / 6 := by
  induction xs generalizing start with
  | nil => simp [valueBlockSpec]
  | cons x xs ih =>
    simp only [valueBlockSpec, List.count_append, ih, List.length_cons]
    split_ifs with h
    · simp [List.count_cons]
      omega
    · simp [List.count_cons]
      omega

/-- The last piece of a non-empty block: a newline when the count of values written
is a multiple of 6, the last value otherwise. -/
theorem getLast_valueBlockSpec (xs : List REAL) (start : Nat) (hne : xs ≠ []) :
    (valueBlockSpec xs start).getLast? =
      if (start + xs.length) % 6 = 0 then some (Tok.str "\n")
      else xs.getLast?.map (Tok.num 12) := by
  induction xs generalizing start with
  | nil => exact absurd rfl hne
  | cons x xs ih =>
    cases xs with
    | nil =>
      simp only [valueBlockSpec, List.append_nil, List.length_singleton]
      split_ifs <;> simp
    | cons y ys =>
      have h := ih (start + 1) (by simp)
      have hne2 : valueBlockSpec (y :: ys) (start + 1) ≠ [] := by
        intro hc
        have := congrArg numbersOf hc
        rw [numbersOf_valueBlockSpec] at this
        simp [numbersOf] at this
      rw [valueBlockSpec, List.getLast?_append_of_ne_nil _ hne2, h]
      simp only [List.length_cons, List.getLast?_cons_cons]
      have e : (start + 1 + (ys.length + 1)) % 6 = (start + (ys.length + 1 + 1)) % 6 := by
        congr 1; omega
      simp only [e]
/-! ## Reader selection -/

/-- C1: the reader is chosen by exact match of `files["code"]`: "vasp", "qe",
"fhiaims" and "prophet" give the VASP, QE, FHIAIMS and CUSTOM reader, with which the
rest of the construction runs; for every other string, the empty string of a
missing key included, the construction fails with a configuration error whose
message quotes that string, whatever the readers are (none is called). -/
theorem reader_selection (env : Env) (files : FileMap) (F : Functional_params) :
    (files.get "code" = "vasp" →
      selectBackend (files.get "code") = Except.ok Backend.VASP ∧
      construct env files F = constructWith env (env.reader Backend.VASP) files F) ∧
    (files.get "code" = "qe" →
      selectBackend (files.get "code") = Except.ok Backend.QE ∧
      construct env files F = constructWith env (env.reader Backend.QE) files F) ∧
    (files.get "code" = "fhiaims" →
      selectBackend (files.get "code") = Except.ok Backend.FHIAIMS ∧
      construct env files F = constructWith env (env.reader Backend.FHIAIMS) files F) ∧
    (files.get "code" = "prophet" →
      selectBackend (files.get "code") = Except.ok Backend.CUSTOM ∧
      construct env files F = constructWith env (env.reader Backend.CUSTOM) files F) ∧
    (files.get "code" ≠ "vasp" → files.get "code" ≠ "qe" →
      files.get "code" ≠ "fhiaims" → files.get "code" ≠ "prophet" →
      selectBackend (files.get "code") = Except.error (Err.configuration
        ("Interface to code '" ++ files.get "code" ++ "' has not been implemented")) ∧
      ∀ env2 : Env, construct env2 files F = Except.error (Err.configuration
        ("Interface to code '" ++ files.get "code" ++ "' has not been implemented"))) ∧
    (files.lookup "code" = none → files.get "code" = "") := by
  refine ⟨?_, ?_, ?_, ?_, ?_, ?_⟩
  · intro h
    simp [construct, selectBackend, h]; rfl
  · intro h
    simp [construct, selectBackend, h]; rfl
  · intro h
    simp [construct, selectBackend, h]; rfl
  · intro h
    simp [construct, selectBackend, h]; rfl
  · intro h1 h2 h3 h4
    simp only [construct, selectBackend, h1, h2, h3, h4, if_false, ERROR]
    exact ⟨trivial, fun _ => rfl⟩
  · intro h
    simp [FileMap.get, h]

/-- Witness for C1: code "qe" runs the construction with the QE reader, and a file
map without a "code" key fails naming the empty code. -/
theorem reader_selection_witness :
    (selectBackend (FileMap.get [("code", "qe")] "code") = Except.ok Backend.QE ∧
      construct (sampleEnv "" "" [] LockedPush.ignored) [("code", "qe")]
          (sampleParams ["density"] "energy" false) =
        constructWith (sampleEnv "" "" [] LockedPush.ignored)
          ((sampleEnv "" "" [] LockedPush.ignored).reader Backend.QE) [("code", "qe")]
          (sampleParams ["density"] "energy" false)) ∧
    construct (sampleEnv "" "" [] LockedPush.ignored) []
        (sampleParams ["density"] "energy" false) =
      Except.error (Err.configuration "Interface to code '' has not been implemented") :=
  ⟨(reader_selection (sampleEnv "" "" [] LockedPush.ignored) [("code", "qe")]
      (sampleParams ["density"] "energy" false)).2.1 (by decide),
   ((reader_selection (sampleEnv "" "" [] LockedPush.ignored) []
      (sampleParams ["density"] "energy" false)).2.2.2.2.1
      (by decide) (by decide) (by decide) (by decide)).2 _⟩

/-! ## The inert input "density^2" -/

/-- C3: processing "density^2" returns the state it was given: no vector appended,
lock flag and target unchanged, no error, no reader call added to the trace; in
particular it does not take the scalar-property branch, which would call
`get_property` and append a vector. -/
theorem density_squared_inert (env : Env) (DFT : DFT_IO) (files : FileMap)
    (F : Functional_params) (s : System) :
    processInput env DFT files F "density^2" s = Except.ok s := by
  simp [processInput]; rfl

/-! ## The "density" input -/

/-- C10: a "density" input on an unlocked collection appends a reference to the
Density Field, and the field it refers to is the result of, in this order: the load
from the reader with the configured sample step (only when `N()` is 0, otherwise the
field already held), `normalize(NormCD_val)` iff `NormCD`, `variance(var_bounds)`,
`conv_matrix(Nconv)` iff `Nconv < 10`, and `downsample(sample_step)`; the appended
vector is the grid of that field, so its length is the post-downsample grid length. -/
theorem density_feature_pipeline (env : Env) (DFT : DFT_IO) (files : FileMap)
    (F : Functional_params) (s : System) (loaded : DensityField)
    (hload : (if s.Density.N = 0 then DFT.get_density (files.get "density") F.sample_step
        else Except.ok s.Density) = Except.ok loaded)
    (hopen : s.properties.locked = false) :
    ∃ s', processInput env DFT files F "density" s = Except.ok s' ∧
      s'.Density = env.downsample F.sample_step
        (if F.Nconv < 10 then
          env.conv_matrix F.Nconv (env.variance F.var_bounds
            (if F.NormCD then env.normalize F.NormCD_val loaded else loaded))
        else
          env.variance F.var_bounds
            (if F.NormCD then env.normalize F.NormCD_val loaded else loaded)) ∧
      s'.properties.data = s.properties.data ++ [FeatureRef.density] ∧
      s'.deref FeatureRef.density = s'.Density.values ∧
      (s'.deref FeatureRef.density).length = s'.Density.N ∧
      s'.calls =
        (if s.Density.N = 0 then
          s.calls ++ [ReaderCall.get_density (files.get "density") F.sample_step]
        else s.calls) := by
  refine ⟨afterDensity env files F s loaded
      { s.properties with data := s.properties.data ++ [FeatureRef.density] }, ?_, ?_, rfl, rfl,
      rfl, rfl⟩
  · refine (processInput_density_ok env DFT files F s _).mpr ⟨loaded, _, ?_, ?_, rfl⟩
    · by_cases hN : s.Density.N = 0
      · simpa [hN] using hload
      · simp only [hN, if_false, Except.ok.injEq] at hload
        rw [if_neg hN]; exact hload.symm
    · simp [FeatureCollection.push_back, hopen]
  · simp only [afterDensity, densityPipeline]

/-- Witness for C10: normalisation on, `Nconv = 3`, stride 2, on the freshly
initialised state. -/
theorem density_feature_pipeline_witness :
    ∃ s', processInput (sampleEnv "" "" [] LockedPush.ignored) (sampleReader "" "" [])
        [("density", "CHGCAR")]
        { sampleParams ["density"] "energy" false with
          NormCD := true, NormCD_val := 2, Nconv := 3, sample_step := 2 }
        "density" (initialState [("density", "CHGCAR")]) = Except.ok s' ∧
      s'.Density.values = [2, 6] ∧
      s'.properties.data = [FeatureRef.density] ∧
      (s'.deref FeatureRef.density).length = 2 := by
  obtain ⟨s', h1, h2, h3, h4, h5, -⟩ :=
    density_feature_pipeline (sampleEnv "" "" [] LockedPush.ignored) (sampleReader "" "" [])
      [("density", "CHGCAR")]
      { sampleParams ["density"] "energy" false with
        NormCD := true, NormCD_val := 2, Nconv := 3, sample_step := 2 }
      (initialState [("density", "CHGCAR")])
      { values := [1, 2, 3, 4], dV := 2, volume := 4, train := "" } rfl rfl
  have hv : s'.Density.values = [2, 6] := by rw [h2]; decide!
  refine ⟨s', h1, hv, h3, ?_⟩
  rw [h4, hv]; rfl

/-! ## The running prefactor -/

/-- C4, as stated, fails: with the inputs "density", "density" (output not
intensive) the construction succeeds, the Density Field has `dV = 2`, and the
prefactor is `4 = dV * dV`, not `dV`. -/
theorem prefactor_counterexample :
    (construct (sampleEnv "" "" [] LockedPush.ignored) [("code", "qe")]
        (sampleParams ["density", "density"] "energy" false)).toOption.map
      (fun s => (s.Prefactor, s.Density.get_dV, decide (s.Prefactor = s.Density.get_dV))) =
    some (4, 2, false) := by
  decide!

/-- C4, amended: right after the first "density" input of the configured list the
prefactor equals the Density Field's `dV` when the output is not intensive and
`dV / volume` when it is; the same holds at the end of a construction whose list has
"density" exactly once; and every "density" input multiplies the running prefactor
by the field's `dV` as it stands after that input, and divides it by the field's
`volume` exactly when the output is intensive. -/
theorem prefactor_first_density (env : Env) (files : FileMap) (F : Functional_params) :
    (∀ (DFT : DFT_IO) (pre : List String) (s : System), "density" ∉ pre →
      processInputs env DFT files F (pre ++ ["density"]) (initialState files) = Except.ok s →
      s.Prefactor =
        if F.output_is_intensive then s.Density.get_dV / s.Density.volume
        else s.Density.get_dV) ∧
    (∀ s : System, F.inputs.count "density" = 1 → construct env files F = Except.ok s →
      s.Prefactor =
        if F.output_is_intensive then s.Density.get_dV / s.Density.volume
        else s.Density.get_dV) ∧
    (∀ (DFT : DFT_IO) (s s' : System),
      processInput env DFT files F "density" s = Except.ok s' →
      s'.Prefactor =
        if F.output_is_intensive then s.Prefactor * s'.Density.get_dV / s'.Density.volume
        else s.Prefactor * s'.Density.get_dV) := by
  refine ⟨?_, ?_, ?_⟩
  · intro DFT pre s hpre h
    refine processInputs_single_density env DFT files F (pre ++ ["density"])
      (initialState files) s ?_ rfl h
    rw [List.count_append, List.count_eq_zero_of_not_mem hpre]
    rfl
  · intro s hcount h
    obtain ⟨b, s1, -, h1, h2⟩ := (construct_ok env files F s).mp h
    obtain ⟨-, e2, e3, -⟩ := resolveTarget_frame env (env.reader b) files F s1 s h2
    rw [e2, e3]
    exact processInputs_single_density env (env.reader b) files F F.inputs
      (initialState files) s1 hcount rfl h1
  · intro DFT s s' h
    exact processInput_density_prefactor env DFT files F s s' h

/-- Witness for C4 amended: inputs "density", "structure" with intensive output end
with the prefactor `dV / volume = 2 / 4`. -/
theorem prefactor_first_density_witness :
    ∃ s, construct (sampleEnv "" "" [] LockedPush.ignored) [("code", "qe")]
        (sampleParams ["density", "structure"] "energy" true) = Except.ok s ∧
      (s.Density.get_dV, s.Density.volume) = (2, 4) ∧
      s.Prefactor = s.Density.get_dV / s.Density.volume := by
  obtain ⟨s, hc, hv⟩ := ok_of_toOption_map
    (x := construct (sampleEnv "" "" [] LockedPush.ignored) [("code", "qe")]
      (sampleParams ["density", "structure"] "energy" true))
    (f := fun s => (s.Density.get_dV, s.Density.volume)) (v := (2, 4)) (by decide!)
  exact ⟨s, hc, hv,
    (prefactor_first_density (sampleEnv "" "" [] LockedPush.ignored) [("code", "qe")]
      (sampleParams ["density", "structure"] "energy" true)).2.1 s (by decide) hc⟩

/-! ## The lock set by "structure" -/

/-- C2: whenever the reader delivers the structure, processing "structure" succeeds
and leaves the collection locked, with the vectors it had; on a locked collection
every further input either fails or leaves the stored vectors and the lock as they
are; hence, for an input list `pre ++ ["structure"] ++ post`, the collection is
locked right after "structure" and no input of `post` adds a vector. -/
theorem structure_locks_collection (env : Env) (DFT : DFT_IO) (files : FileMap)
    (F : Functional_params) :
    (∀ (s : System) (st : StructureDescriptor),
      DFT.read_structure (files.get "structure") = Except.ok st →
      ∃ s', processInput env DFT files F "structure" s = Except.ok s' ∧
        s'.properties.locked = true ∧ s'.properties.data = s.properties.data) ∧
    (∀ (input : String) (s s' : System), s.properties.locked = true →
      processInput env DFT files F input s = Except.ok s' →
      s'.properties.locked = true ∧ s'.properties.data = s.properties.data) ∧
    (∀ (pre post : List String) (s0 s1 s2 : System),
      processInputs env DFT files F (pre ++ ["structure"]) s0 = Except.ok s1 →
      processInputs env DFT files F post s1 = Except.ok s2 →
      s1.properties.locked = true ∧ s2.properties.locked = true ∧
        s2.properties.data = s1.properties.data) := by
  refine ⟨?_, ?_, ?_⟩
  · intro s st hst
    exact ⟨_, (processInput_structure_ok env DFT files F s _).mpr ⟨st, hst, rfl⟩, rfl, rfl⟩
  · intro input s s' hlock h
    exact processInput_locked env DFT files F input s s' hlock h
  · intro pre post s0 s1 s2 h1 h2
    have hlock : s1.properties.locked = true := by
      rw [processInputs_append] at h1
      cases hp : processInputs env DFT files F pre s0 with
      | error e => simp [hp, bind, Except.bind] at h1
      | ok sp =>
        simp only [hp, bind, Except.bind] at h1
        obtain ⟨sq, hq, hr⟩ := (processInputs_cons_ok env DFT files F "structure" [] sp s1).mp h1
        simp only [processInputs, pure, Except.pure, Except.ok.injEq] at hr
        subst hr
        obtain ⟨st, -, rfl⟩ := (processInput_structure_ok env DFT files F sp sq).mp hq
        rfl
    obtain ⟨e1, e2⟩ := processInputs_locked env DFT files F post s1 s2 hlock h2
    exact ⟨hlock, e1, e2⟩

/-- Witness for C2: after "density", "structure" the collection is locked, and the
later inputs "random", "density" and "gap" leave it with the single density vector. -/
theorem structure_locks_collection_witness :
    ∃ s2,
      processInputs (sampleEnv "" "" [] LockedPush.ignored) (sampleReader "" "" []) []
        (sampleParams [] "energy" false) (["density"] ++ ["structure"]) (initialState []) =
          Except.ok sampleLocked ∧
      processInputs (sampleEnv "" "" [] LockedPush.ignored) (sampleReader "" "" []) []
        (sampleParams [] "energy" false) ["random", "density", "gap"] sampleLocked =
          Except.ok s2 ∧
      sampleLocked.properties.locked = true ∧ s2.properties.locked = true ∧
      s2.properties.data = sampleLocked.properties.data := by
  have h1 : processInputs (sampleEnv "" "" [] LockedPush.ignored) (sampleReader "" "" []) []
      (sampleParams [] "energy" false) (["density"] ++ ["structure"]) (initialState []) =
        Except.ok sampleLocked := by with_unfolding_all rfl
  obtain ⟨s2, h2, -⟩ := ok_of_toOption_map
    (x := processInputs (sampleEnv "" "" [] LockedPush.ignored) (sampleReader "" "" []) []
      (sampleParams [] "energy" false) ["random", "density", "gap"] sampleLocked)
    (f := fun s => s.properties.locked) (v := true) (by decide!)
  exact ⟨s2, h1, h2,
    (structure_locks_collection (sampleEnv "" "" [] LockedPush.ignored)
      (sampleReader "" "" []) [] (sampleParams [] "energy" false)).2.2
      ["density"] ["random", "density", "gap"] _ sampleLocked s2 h1 h2⟩

/-! ## The scenario "density", "structure" -/

/-- C8, as stated, fails: for inputs "density", "structure", output "energy",
backend "qe" and no `FE`, the construction succeeds with a locked collection that
holds one vector, the density vector, not two. -/
theorem density_structure_counterexample :
    (construct (sampleEnv "" "" [] LockedPush.ignored) [("code", "qe")]
        (sampleParams ["density", "structure"] "energy" false)).toOption.map
      (fun s => (s.properties.data, s.properties.data.length, s.properties.locked)) =
    some ([FeatureRef.density], 1, true) := by
  decide!

/-- C8, amended: for inputs "density", "structure" and backend "qe" (whatever the
output and `FE`), a successful construction yields a collection that contains
exactly one feature vector, the density vector (a reference to the Density Field's
grid), with the lock flag true; "structure" appends no vector. -/
theorem density_structure_collection (env : Env) (files : FileMap) (F : Functional_params)
    (s : System) (hcode : files.get "code" = "qe")
    (hin : F.inputs = ["density", "structure"])
    (h : construct env files F = Except.ok s) :
    s.properties.data = [FeatureRef.density] ∧ s.properties.data.length = 1 ∧
      s.properties.locked = true ∧ s.deref FeatureRef.density = s.Density.values ∧
      selectBackend (files.get "code") = Except.ok Backend.QE := by
  obtain ⟨b, s2, hb, h1, h2⟩ := (construct_ok env files F s).mp h
  rw [hin] at h1
  obtain ⟨s1, hd, hrest⟩ :=
    (processInputs_cons_ok env (env.reader b) files F _ _ _ _).mp h1
  obtain ⟨s2', hs, hnil⟩ := (processInputs_cons_ok env (env.reader b) files F _ _ _ _).mp hrest
  simp only [processInputs, pure, Except.pure, Except.ok.injEq] at hnil
  subst hnil
  obtain ⟨loaded, props, -, hp, rfl⟩ :=
    (processInput_density_ok env (env.reader b) files F _ s1).mp hd
  obtain ⟨st, -, rfl⟩ := (processInput_structure_ok env (env.reader b) files F _ s2').mp hs
  obtain ⟨-, -, -, hpd⟩ := push_back_ok _ _ _ _ hp
  have hdata := hpd rfl
  obtain ⟨-, -, -, -, e5, e6, -⟩ := resolveTarget_frame env (env.reader b) files F _ s h2
  have hd1 : s.properties.data = [FeatureRef.density] := by
    rw [e5]; simpa [afterDensity, FeatureCollection.lock, initialState, System.fresh] using hdata
  refine ⟨hd1, by rw [hd1]; rfl, ?_, rfl, ?_⟩
  · rw [e6]; rfl
  · rw [hcode]; rfl

/-- Witness for C8 amended, on the sample reader. -/
theorem density_structure_collection_witness :
    ∃ s, construct (sampleEnv "" "" [] LockedPush.fails) [("code", "qe")]
        (sampleParams ["density", "structure"] "energy" false) = Except.ok s ∧
      s.properties.data = [FeatureRef.density] ∧ s.properties.locked = true ∧
      s.deref FeatureRef.density = [1, 2, 3, 4] := by
  obtain ⟨s, hc, hv⟩ := ok_of_toOption_map
    (x := construct (sampleEnv "" "" [] LockedPush.fails) [("code", "qe")]
      (sampleParams ["density", "structure"] "energy" false))
    (f := fun s => s.deref FeatureRef.density) (v := [1, 2, 3, 4]) (by decide!)
  have h := density_structure_collection (sampleEnv "" "" [] LockedPush.fails)
    [("code", "qe")] (sampleParams ["density", "structure"] "energy" false) s
    (by decide) rfl hc
  exact ⟨s, hc, h.1, h.2.2.1, hv⟩


/-- Once the backend is chosen and the inputs are processed, the construction is the
target resolution. -/
theorem construct_eq_resolveTarget (env : Env) (files : FileMap) (F : Functional_params)
    (b : Backend) (s : System) (hb : selectBackend (files.get "code") = Except.ok b)
    (hin : processInputs env (env.reader b) files F F.inputs (initialState files) =
      Except.ok s) :
    construct env files F = resolveTarget env (env.reader b) files F s := by
  simp [construct, constructWith, hb, hin, bind, Except.bind]

theorem user_output_facts (t : String) :
    ("user" ++ t) ≠ "gw_gap" ∧ findAtZero ("user" ++ t) "user" = true ∧
      substr ("user" ++ t) 4 = t := by
  refine ⟨?_, ?_, ?_⟩
  · intro h
    have := congrArg String.data h
    simp at this
  · simp [findAtZero, List.isPrefixOf]
  · simp [substr]

/-! ## The target -/

/-- C5: with output "energy" and the energy `e` delivered by the reader's
`get_property("energy", files["energy"])`, the construction succeeds and sets the
target to `e` itself when both the configuration's `FE` and the Structure
Descriptor's `FE` are empty, and to `structure.train_Local(F, e)` when either is not.
In particular for inputs "density", "structure" and backend "qe", with no `FE` in the
configuration nor on the structure read, the target is the raw energy `e`. -/
theorem energy_target (env : Env) (files : FileMap) (F : Functional_params) (b : Backend)
    (s : System) (e : REAL)
    (hb : selectBackend (files.get "code") = Except.ok b)
    (hout : F.output = "energy")
    (hin : processInputs env (env.reader b) files F F.inputs (initialState files) =
      Except.ok s)
    (he : (env.reader b).get_property "energy" (files.get "energy") = Except.ok e) :
    ∃ s', construct env files F = Except.ok s' ∧
      (F.FE = [] ∧ s.struct.FE = [] → s'.properties.target = some e) ∧
      (¬ (F.FE = [] ∧ s.struct.FE = []) →
        s'.properties.target = some (env.train_Local s.struct F e)) ∧
      (F.inputs = ["density", "structure"] → files.get "code" = "qe" → F.FE = [] →
        ∀ st, (env.reader b).read_structure (files.get "structure") = Except.ok st →
          st.FE = [] → b = Backend.QE ∧ s'.properties.target = some e) := by
  have hres : resolveTarget env (env.reader b) files F s =
      Except.ok { s with
        calls := s.calls ++ [ReaderCall.get_property F.output (files.get F.output)],
        properties := s.properties.setTarget
          (if !F.FE.isEmpty || !s.struct.FE.isEmpty then env.train_Local s.struct F e
            else e) } := by
    have h3 : findAtZero "energy" "user" = false := by decide
    simp [resolveTarget, hout, h3, he, bind, Except.bind, pure, Except.pure]
  have hboth : F.FE = [] ∧ s.struct.FE = [] →
      (if !F.FE.isEmpty || !s.struct.FE.isEmpty then env.train_Local s.struct F e else e)
        = e := by
    rintro ⟨e1, e2⟩
    simp [e1, e2]
  refine ⟨_, (construct_eq_resolveTarget env files F b s hb hin).trans hres, ?_, ?_, ?_⟩
  · intro h
    simp only [FeatureCollection.setTarget, hboth h]
  · intro h
    have : (!F.FE.isEmpty || !s.struct.FE.isEmpty) = true := by
      by_contra hc
      apply h
      simp only [Bool.or_eq_true, Bool.not_eq_true', not_or, Bool.not_eq_false,
        List.isEmpty_iff] at hc
      exact hc
    simp only [FeatureCollection.setTarget, this, if_true]
  · intro hinp hcode hFE st hst hstFE
    rw [hinp] at hin
    obtain ⟨s1, -, hrest⟩ := (processInputs_cons_ok env (env.reader b) files F _ _ _ _).mp hin
    obtain ⟨s2, hs, hnil⟩ :=
      (processInputs_cons_ok env (env.reader b) files F _ _ _ _).mp hrest
    simp only [processInputs, pure, Except.pure, Except.ok.injEq] at hnil
    subst hnil
    obtain ⟨st2, hst2, rfl⟩ := (processInput_structure_ok env (env.reader b) files F s1 s2).mp hs
    have : st2 = st := by
      rw [hst2] at hst
      exact Except.ok.inj hst
    subst this
    have hbq : b = Backend.QE := by
      rw [hcode] at hb
      exact (Except.ok.inj hb).symm
    refine ⟨hbq, ?_⟩
    simp only [FeatureCollection.setTarget]
    rw [hboth ⟨hFE, hstFE⟩]

/-- Witness for C5: the sample reader delivers the energy 5; without `FE` it is the
target of the scenario "density", "structure" on backend "qe". -/
theorem energy_target_witness :
    ∃ s', construct (sampleEnv "" "" [] LockedPush.fails)
        [("code", "qe"), ("energy", "out.xml")]
        (sampleParams ["density", "structure"] "energy" false) = Except.ok s' ∧
      s'.properties.target = some 5 := by
  obtain ⟨s, hin, hv⟩ := ok_of_toOption_map
    (x := processInputs (sampleEnv "" "" [] LockedPush.fails)
      ((sampleEnv "" "" [] LockedPush.fails).reader Backend.QE)
      [("code", "qe"), ("energy", "out.xml")]
      (sampleParams ["density", "structure"] "energy" false)
      (sampleParams ["density", "structure"] "energy" false).inputs
      (initialState [("code", "qe"), ("energy", "out.xml")]))
    (f := fun s => s.struct.FE) (v := []) (by decide!)
  obtain ⟨s', hc, ht, -, -⟩ := energy_target (sampleEnv "" "" [] LockedPush.fails)
    [("code", "qe"), ("energy", "out.xml")]
    (sampleParams ["density", "structure"] "energy" false) Backend.QE s 5
    rfl rfl hin rfl
  exact ⟨s', hc, ht ⟨rfl, hv⟩⟩

/-- C6: for an output name "user" followed by the decimal numeral of an integer `n`
that fits an `int`: with a backend code other than "prophet", a non-empty vector
returned by `get_user_property(n, files["user"])` makes the construction succeed
with its element 0 as target, and an empty vector makes the construction fail
(`at(0)` throws) without a target; with the code "prophet" the target is
`get_property("user", "user")`. -/
theorem user_target (env : Env) (files : FileMap) (F : Functional_params) (b : Backend)
    (s : System) (n : Int) (hn : -2 ^ 31 ≤ n ∧ n < 2 ^ 31)
    (hb : selectBackend (files.get "code") = Except.ok b)
    (hout : F.output = "user" ++ toString n)
    (hin : processInputs env (env.reader b) files F F.inputs (initialState files) =
      Except.ok s) :
    (files.get "code" ≠ "prophet" →
      (∀ v, (env.reader b).get_user_property n (files.get "user") = Except.ok v → v ≠ [] →
        ∃ s', construct env files F = Except.ok s' ∧ s'.properties.target = v.get? 0) ∧
      ((env.reader b).get_user_property n (files.get "user") = Except.ok [] →
        construct env files F = Except.error Err.out_of_range)) ∧
    (files.get "code" = "prophet" →
      ∀ x, (env.reader b).get_property "user" "user" = Except.ok x →
        ∃ s', construct env files F = Except.ok s' ∧ s'.properties.target = some x) := by
  obtain ⟨f1, f2, f3⟩ := user_output_facts (toString n)
  rw [← hout] at f1 f2 f3
  have hprop : atoi (substr F.output 4) = n := by rw [f3]; exact atoi_toString_int n
  rw [construct_eq_resolveTarget env files F b s hb hin]
  refine ⟨fun hcode => ⟨?_, ?_⟩, ?_⟩
  · intro v hv hne
    cases v with
    | nil => exact absurd rfl hne
    | cons x rest =>
      refine ⟨{ s with
        calls := s.calls ++ [ReaderCall.get_user_property n (files.get "user")],
        properties := s.properties.setTarget x }, ?_, rfl⟩
      simp [resolveTarget, f1, f2, hcode, hprop, hv, vectorAt, bind, Except.bind, pure,
        Except.pure]
  · intro hv
    simp [resolveTarget, f1, f2, hcode, hprop, hv, vectorAt, bind, Except.bind]
  · intro hcode x hx
    refine ⟨{ s with
      calls := s.calls ++ [ReaderCall.get_property "user" "user"],
      properties := s.properties.setTarget x }, ?_, rfl⟩
    simp [resolveTarget, f1, f2, hcode, hx, bind, Except.bind, pure, Except.pure]

/-- Witness for C6: output "user3" on backend "vasp"; the sample reader returns
`[7, 8]` for the user property 3, so the target is 7. -/
theorem user_target_witness :
    ∃ s', construct (sampleEnv "" "" [] LockedPush.fails)
        [("code", "vasp"), ("user", "user.dat")]
        (sampleParams ["density"] "user3" false) = Except.ok s' ∧
      s'.properties.target = some 7 := by
  obtain ⟨s, hin, -⟩ := ok_of_toOption_map
    (x := processInputs (sampleEnv "" "" [] LockedPush.fails)
      ((sampleEnv "" "" [] LockedPush.fails).reader Backend.VASP)
      [("code", "vasp"), ("user", "user.dat")]
      (sampleParams ["density"] "user3" false)
      (sampleParams ["density"] "user3" false).inputs
      (initialState [("code", "vasp"), ("user", "user.dat")]))
    (f := fun s => s.properties.locked) (v := false) (by decide!)
  exact ((user_target (sampleEnv "" "" [] LockedPush.fails)
    [("code", "vasp"), ("user", "user.dat")]
    (sampleParams ["density"] "user3" false) Backend.VASP s 3 (by decide) rfl
    rfl hin).1 (by decide)).1 [7, 8] rfl (by simp)

/-! ## `write_cube` -/

theorem numbersOf_append (a b : List Tok) : numbersOf (a ++ b) = numbersOf a ++ numbersOf b := by
  induction a with
  | nil => rfl
  | cons t ts ih =>
    cases t <;> simp [numbersOf, ih]

/-- C9: `write_cube` writes `<fname>.out.cube` and `<fname>.in.cube`; after the
header lines the first holds the stored outputs and the second the Density Field's
grid values, by the same rule: all values in stored order, each in a field of width
12, a newline after the k-th value exactly when k is a multiple of 6, hence
`n / 6` newlines for `n` values and none after a trailing partial line.  The values
of the first file are the stored outputs (each `store_output` appends one) whatever
the grid is. -/
theorem write_cube_value_block (env : Env) (s : System) (fname : String) :
    (write_cube env s fname).1.name = fname ++ ".out.cube" ∧
    (write_cube env s fname).2.name = fname ++ ".in.cube" ∧
    (write_cube env s fname).1.content = outCubeHeader env s ++ valueBlockSpec s.output 0 ∧
    (write_cube env s fname).2.content =
      inCubeHeader env s ++ valueBlockSpec s.Density.values 0 ∧
    numbersOf (write_cube env s fname).1.content = s.output ∧
    numbersOf (write_cube env s fname).2.content = s.Density.values ∧
    (∀ x : REAL, (store_output s x).output = s.output ++ [x]) ∧
    (∀ xs : List REAL,
      numbersOf (valueBlockSpec xs 0) = xs ∧
      (∀ t ∈ valueBlockSpec xs 0, t = Tok.str "\n" ∨ ∃ x ∈ xs, t = Tok.num 12 x) ∧
      (valueBlockSpec xs 0).count (Tok.str "\n") = xs.length / 6 ∧
      (xs.length % 6 ≠ 0 →
        (valueBlockSpec xs 0).getLast? = xs.getLast?.map (Tok.num 12))) := by
  refine ⟨rfl, rfl, ?_, ?_, ?_, ?_, fun _ => rfl, ?_⟩
  · simp [write_cube, writeValues_eq]
  · simp [write_cube, writeValues_eq]
  · simp [write_cube, writeValues_eq, numbersOf_append, numbersOf_valueBlockSpec,
      outCubeHeader, numbersOf]
  · simp [write_cube, writeValues_eq, numbersOf_append, numbersOf_valueBlockSpec,
      inCubeHeader, numbersOf]
  · intro xs
    refine ⟨numbersOf_valueBlockSpec xs 0, fun t ht => mem_valueBlockSpec xs 0 t ht, ?_, ?_⟩
    · simpa using count_newline_valueBlockSpec xs 0
    · intro h
      have hne : xs ≠ [] := by
        intro hc; subst hc; simp at h
      have := getLast_valueBlockSpec xs 0 hne
      simpa [h] using this

/-- Witness for C9: seven stored outputs and a grid of five values.  The predicted
file has one line of six values, a newline, and one more value; the input file has
the five grid values and no newline. -/
theorem write_cube_value_block_witness :
    (write_cube (sampleEnv "" "" [] LockedPush.fails) sampleCubeState "run").1.content =
      outCubeHeader (sampleEnv "" "" [] LockedPush.fails) sampleCubeState ++
        [Tok.num 12 1, Tok.num 12 2, Tok.num 12 3, Tok.num 12 4, Tok.num 12 5, Tok.num 12 6,
          Tok.str "\n", Tok.num 12 7] ∧
    (write_cube (sampleEnv "" "" [] LockedPush.fails) sampleCubeState "run").2.content =
      inCubeHeader (sampleEnv "" "" [] LockedPush.fails) sampleCubeState ++
        [Tok.num 12 10, Tok.num 12 20, Tok.num 12 30, Tok.num 12 40, Tok.num 12 50] ∧
    (valueBlockSpec sampleCubeState.output 0).getLast? = some (Tok.num 12 7) :=
  ⟨(write_cube_value_block (sampleEnv "" "" [] LockedPush.fails) sampleCubeState
      "run").2.2.1.trans (by decide!),
   (write_cube_value_block (sampleEnv "" "" [] LockedPush.fails) sampleCubeState
      "run").2.2.2.1.trans (by decide!),
   ((write_cube_value_block (sampleEnv "" "" [] LockedPush.fails) sampleCubeState
      "run").2.2.2.2.2.2.2 sampleCubeState.output).2.2.2 (by decide)⟩

/-! ## The training-source tag -/

/-- The other reading of the lock rule: were an append to a locked collection
dropped silently instead of failing, the inputs "structure", "density" (tags "S" and
"D") would run to the end and leave the Density Field's tag "D". The precedence of
the Structure Descriptor's tag therefore rests on the failing reading. -/
theorem silent_drop_keeps_density_tag :
    (construct (sampleEnv "D" "S" [] LockedPush.ignored) [("code", "qe"), ("train", "T")]
        (sampleParams ["structure", "density"] "energy" false)).toOption.map
      (fun s => (s.Density.train, s.struct.train, s.train)) =
    some ("D", "S", "D") := by
  decide!

end PROPhet
